import Mathlib

/-!
Verification development for the player bridge in
`src/shaka/src/public/player.cc` (shaka-player-embedded).

The C++ `Player::Impl` holds a `std::list<NetworkFilters*> filters_`
guarded by `filters_mutex_`.  Removal never erases a node; it overwrites
the pointer with `nullptr` (a tombstone), so list iterators held by an
in-flight chain traversal stay valid.  We embed one registry slot as
`Option F`: `some f` is a live entry for the filter identity `f`, and
`none` is a tombstone (the C++ `nullptr`).
-/

namespace Shaka

/-- Body of `Player::Impl::AddNetworkFilters` (player.cc:158-161):
`filters_.emplace_back(filters)` appends a live entry. -/
def addNetworkFilters {F : Type} (filters : List (Option F)) (f : F) :
    List (Option F) :=
  filters ++ [some f]

/-- Body of `Player::Impl::RemoveNetworkFilters` (player.cc:163-171): for every
element of `filters_`, if it equals the removed pointer it is overwritten
with `nullptr`; nothing is erased from the list. -/
def removeNetworkFilters {F : Type} [DecidableEq F]
    (filters : List (Option F)) (f : F) : List (Option F) :=
  filters.map (fun elem => if elem = some f then none else elem)

/-- A concurrent mutation of the registry: the two public operations that
touch `filters_`. -/
inductive RegOp (F : Type)
  | add (f : F)
  | remove (f : F)

/-- Apply one registry operation. -/
def applyOp {F : Type} [DecidableEq F] (filters : List (Option F)) :
    RegOp F → List (Option F)
  | .add f => addNetworkFilters filters f
  | .remove f => removeNetworkFilters filters f

/-- Apply a sequence of registry operations (an arbitrary interleaving of
adds and removes happening between chain steps). -/
def applyOps {F : Type} [DecidableEq F] (filters : List (Option F))
    (ops : List (RegOp F)) : List (Option F) :=
  ops.foldl applyOp filters

/-- The observable outcome of one chain run over the registry
(`Player::Impl::StepNetworkFilter`, player.cc:281-303): the filters that
were invoked, in order; the chain result (`none` = the promise resolved
with `undefined`, `some e` = it was rejected with error `e`); and how
many times the payload object's `Finalize` hook ran. -/
structure ChainOutcome (F E : Type) where
  invoked : List F
  result : Option E
  finalizeCount : Nat
deriving DecidableEq, Repr

/-- Modelled from the spec: `HandleNetworkFuture` is declared in
`src/js/net.h`, which is not part of this source tree; only its call site
(player.cc:292-294) is.  Per the spec, it observes the filter step's
resolved `optional<Error>`: a present error becomes the chain's terminal
result and the payload is still finalized exactly once ("finalized …
exactly once after the chain completes, regardless of success or
failure"); an absent error lets the chain continue with the given
continuation. -/
def handleNetworkFuture {F E : Type} (res : Option E)
    (onDone : Unit → ChainOutcome F E) : ChainOutcome F E :=
  match res with
  | some e => { invoked := [], result := some e, finalizeCount := 1 }
  | none => onDone ()

/-- Body of `Player::Impl::StepNetworkFilter` (player.cc:281-303) over a registry
that is not mutated during the run, recursing on the remaining suffix of
`filters_` from the current iterator: tombstones (`nullptr` entries) are
skipped; the first live filter is invoked and its future is handed to
`HandleNetworkFuture` with the continuation at the next position; when the
scan reaches the end, `obj->Finalize()` runs and the promise resolves with
`undefined` (success).  `onFilter f` is the resolved value of filter `f`'s
asynchronous step (`none` = no error). -/
def stepNetworkFilter {F E : Type} (onFilter : F → Option E) :
    List (Option F) → ChainOutcome F E
  | [] => { invoked := [], result := none, finalizeCount := 1 }
  | none :: rest => stepNetworkFilter onFilter rest
  | some f :: rest =>
    let o := handleNetworkFuture (onFilter f)
      (fun _ => stepNetworkFilter onFilter rest)
    { o with invoked := f :: o.invoked }

/-- The live (non-tombstoned) filters of a registry, in registration
order. -/
def liveFilters {F : Type} (filters : List (Option F)) : List F :=
  filters.filterMap id

/-- The scan loop inside `StepNetworkFilter`'s lock scope
(player.cc:287-296): starting from the iterator's position, skip `nullptr`
entries and stop at the first live one.  `scanAux l idx` scans suffix `l`
whose head sits at absolute position `idx`. -/
def scanAux {F : Type} : List (Option F) → Nat → Option (Nat × F)
  | [], _ => none
  | none :: rest, idx => scanAux rest (idx + 1)
  | some f :: _, idx => some (idx, f)

/-- Scan the registry for the first live entry at a position `≥ i`.
The C++ holds a `std::list` iterator; since entries are never erased or
reordered, that iterator is exactly a position index into the
registration order. -/
def scanNext {F : Type} (filters : List (Option F)) (i : Nat) :
    Option (Nat × F) :=
  scanAux (filters.drop i) i

/-- What one call to `StepNetworkFilter` does at traversal position `i`:
either invoke the live filter found at position `pos` and schedule the
continuation at `nextPos`, or (no live entry remains) finalize the payload
and resolve the chain successfully. -/
inductive StepAction (F : Type)
  | invoke (pos : Nat) (f : F) (nextPos : Nat)
  | terminal
deriving DecidableEq, Repr

/-- One traversal step of `StepNetworkFilter` (player.cc:285-303): scan
for the next live entry; if found at `j`, invoke it and continue at
`std::next(it)`, i.e. position `j + 1`; otherwise finalize and resolve. -/
def chainStep {F : Type} (filters : List (Option F)) (i : Nat) :
    StepAction F :=
  match scanNext filters i with
  | some (j, f) => .invoke j f (j + 1)
  | none => .terminal

/-- The sink-holding state of `Player::Impl`: `video` is the `video_`
member (the currently held `HTMLVideoElement`, absent when detached), and
`detachLog` records, in order, every sink on which `Detach()` was
called. -/
structure VideoState (S : Type) where
  video : Option S
  detachLog : List S
deriving DecidableEq, Repr

/-- The commit step inside `Player::Impl::SetVideoWhenResolved`
(player.cc:181-189): `results = future.get()`; if the result does not
hold an `Error`, the previously held sink (if any) is detached and
`video_` is replaced by the new one; on an `Error` nothing is touched.
The original result is returned either way (`some e` = error, `none` =
success).  `Attach` calls this with `video = some newElem`
(player.cc:138-143) and `Detach` with `video = none`
(player.cc:145-148). -/
def setVideoWhenResolved {S E : Type} (st : VideoState S) (results : Option E)
    (video : Option S) : VideoState S × Option E :=
  match results with
  | some e => (st, some e)
  | none =>
    ({ video := video,
       detachLog :=
         match st.video with
         | some old => st.detachLog ++ [old]
         | none => st.detachLog },
     none)

/-- The timeline of one `Attach`/`Detach` operation
(player.cc:178-193): the remote call's future plus the
`std::async(std::launch::deferred, then)` wrapper returned to the caller.
`impl` is the controller state, `newVideo` the sink captured for the
commit, and `remoteResult` the remote attach/detach call's resolution
(`none` while still pending). -/
structure AttachFlow (S E : Type) where
  impl : VideoState S
  newVideo : Option S
  remoteResult : Option (Option E)
deriving DecidableEq, Repr

/-- The underlying remote attach/detach call resolves with `res`.  Because
the commit lives in a deferred computation, resolution alone mutates
nothing in the controller. -/
def remoteResolved {S E : Type} (fl : AttachFlow S E) (res : Option E) :
    AttachFlow S E :=
  { fl with remoteResult := some res }

/-- An observer calls `get()` on the deferred future returned by
`Attach`/`Detach`: only now does the `then` lambda run, performing the
commit via `SetVideoWhenResolved`'s body.  If the remote call has not
resolved yet, `get()` would block; we model that case as no observable
transition (`none` outcome). -/
def futureGet {S E : Type} (fl : AttachFlow S E) :
    AttachFlow S E × Option (Option E) :=
  match fl.remoteResult with
  | some res =>
    let p := setVideoWhenResolved fl.impl res fl.newVideo
    ({ fl with impl := p.1 }, some p.2)
  | none => (fl, none)

/-- Result kind of the `GetValueType(player_ctor)` check in
`Player::Impl::Initialize` (player.cc:108): either the value looked up
under the well-known qualified name `shaka.Player` is a callable function,
or it is anything else (absent values included). -/
inductive ValueType
  | Function
  | OtherKind
deriving DecidableEq, Repr

/-- Environment for one run of the initialization sequence: the outcome of
each remote step (`none` = the step succeeds, `some e` = it fails with
error `e`).  The fields correspond, in program order, to
`InvokeConstructor` (player.cc:123), the two `AttachEventListener` calls
(player.cc:233, 244), `getNetworkingEngine` (player.cc:247),
`registerRequestFilter` (player.cc:261) and `registerResponseFilter`
(player.cc:273). -/
structure InitEnv (E : Type) where
  ctorType : ValueType
  ctorResult : Option E
  errorListener : Option E
  bufferingListener : Option E
  netEngine : Option E
  registerRequest : Option E
  registerResponse : Option E
deriving DecidableEq, Repr

/-- Steps of the initialization sequence, in program order.  `initObject`
is the `Init(UnsafeJsCast<JsObject>(result_or_except))` call
(player.cc:128) that stores the constructed remote object. -/
inductive InitStep
  | lookupCtor
  | construct
  | initObject
  | attachErrorListener
  | attachBufferingListener
  | getNetworkingEngine
  | registerRequestFilter
  | registerResponseFilter
deriving DecidableEq, Repr

/-- Failure of the initialization sequence: either the distinguished
configuration error built at player.cc:111 when `shaka.Player` does not
resolve to a callable function, or the error of whichever later step
failed. -/
inductive InitFailure (E : Type)
  | ctorNotFound
  | fromStep (e : E)
deriving DecidableEq, Repr

/-- Body of `Player::Impl::AttachListeners` (player.cc:219-279): attach
the error listener, then the buffering listener, then fetch the
networking engine and register the request and response filters; the
first failing step returns its error immediately, skipping the rest.
Returns the steps that ran, in order, and the overall result. -/
def attachListeners {E : Type} (env : InitEnv E) :
    List InitStep × Option E :=
  match env.errorListener with
  | some e => ([.attachErrorListener], some e)
  | none =>
    match env.bufferingListener with
    | some e => ([.attachErrorListener, .attachBufferingListener], some e)
    | none =>
      match env.netEngine with
      | some e => ([.attachErrorListener, .attachBufferingListener,
          .getNetworkingEngine], some e)
      | none =>
        match env.registerRequest with
        | some e => ([.attachErrorListener, .attachBufferingListener,
            .getNetworkingEngine, .registerRequestFilter], some e)
        | none =>
          match env.registerResponse with
          | some e => ([.attachErrorListener, .attachBufferingListener,
              .getNetworkingEngine, .registerRequestFilter,
              .registerResponseFilter], some e)
          | none => ([.attachErrorListener, .attachBufferingListener,
              .getNetworkingEngine, .registerRequestFilter,
              .registerResponseFilter], none)

/-- The callback body of `Player::Impl::Initialize` (player.cc:105-130):
look up `shaka.Player`; if it is not a callable function, fail with the
configuration error; otherwise construct the remote object (failure of
`InvokeConstructor` converts the thrown value and aborts), store it via
`Init`, and run `AttachListeners`.  Returns the steps that ran, in order,
and the overall result (`none` = the sequence succeeded and the object is
Ready). -/
def playerInitRun {E : Type} (env : InitEnv E) :
    List InitStep × Option (InitFailure E) :=
  if env.ctorType ≠ ValueType.Function then
    ([.lookupCtor], some .ctorNotFound)
  else
    match env.ctorResult with
    | some e => ([.lookupCtor, .construct], some (.fromStep e))
    | none =>
      let al := attachListeners env
      ([.lookupCtor, .construct, .initObject] ++ al.1,
       al.2.map .fromStep)

/-- Abstract C++ `double` for the load-argument conversion: the only
distinction `LoadHelper` draws is `isnan` versus everything else, so a
double is either the NaN sentinel or an ordinary numeric value. -/
inductive CDouble
  | nan
  | finite (q : ℚ)
deriving DecidableEq, Repr

/-- The `isnan(value_)` test from player.cc:64. -/
def isnan : CDouble → Bool
  | .nan => true
  | .finite _ => false

/-- JavaScript values as far as the load call's arguments are concerned:
`JsUndefined()` (player.cc:64), a converted number, or a converted
string. -/
inductive JsVal
  | JsUndefined
  | num (d : CDouble)
  | str (s : String)
deriving DecidableEq, Repr

/-- Plain `shaka::ToJsValue` on a double: the corresponding JavaScript
number. -/
def toJsValueNum (d : CDouble) : JsVal :=
  .num d

/-- The body of `LoadHelper::ToJsValue` (player.cc:63-65):
`!isnan(value_) ? ::shaka::ToJsValue(value_) : JsUndefined()`. -/
def LoadHelper.toJsValue (value : CDouble) : JsVal :=
  if !(isnan value) then toJsValueNum value else .JsUndefined

/-- The remote call issued by `Player::Load` (player.cc:430-435): method
name `load` with the manifest URI, the start time wrapped in
`LoadHelper`, and the MIME type. -/
def PlayerLoadCall (manifestUri : String) (startTime : CDouble)
    (mimeType : String) : String × List JsVal :=
  ("load",
   [.str manifestUri, LoadHelper.toJsValue startTime, .str mimeType])

/-- Events of one call to `Player::Impl::StepNetworkFilter`, in program
order, for reasoning about the scope of `filters_mutex_`: the
`std::unique_lock` acquisition and release (player.cc:286 and the scope
exit at 297), the invocation that begins a filter's asynchronous step
(player.cc:291), the `HandleNetworkFuture` registration of the
continuation at the next position (player.cc:292-294), and the terminal
`obj->Finalize()` / `results.ResolveWith(...)` pair
(player.cc:301-302). -/
inductive LockEvent (F : Type)
  | lockAcquire
  | lockRelease
  | invokeFilter (pos : Nat) (f : F)
  | registerContinuation (nextPos : Nat)
  | finalizePayload
  | resolveChain
deriving DecidableEq, Repr

/-- Event trace of one `StepNetworkFilter` call at traversal position `i`:
the lock is taken, the scan runs under it; if a live filter is found at
`j` it is invoked and the continuation registered, still under the lock,
then the function returns (releasing the lock); otherwise the lock scope
ends first and `Finalize`/`ResolveWith` run outside it
(player.cc:285-303, including the comment at 299-300). -/
def stepNetworkFilterTrace {F : Type} (filters : List (Option F))
    (i : Nat) : List (LockEvent F) :=
  match scanNext filters i with
  | some (j, f) =>
    [.lockAcquire, .invokeFilter j f, .registerContinuation (j + 1),
     .lockRelease]
  | none => [.lockAcquire, .lockRelease, .finalizePayload, .resolveChain]

/-- Effect of one event on the mutex hold depth. -/
def lockDelta {F : Type} (d : Nat) : LockEvent F → Nat
  | .lockAcquire => d + 1
  | .lockRelease => d - 1
  | _ => d

/-- Mutex hold depth after a trace, starting unlocked. -/
def lockDepth {F : Type} (tr : List (LockEvent F)) : Nat :=
  tr.foldl lockDelta 0

/-- The non-lock events of a trace that execute while the mutex is held,
given the hold depth at the start of the trace. -/
def eventsUnderLock {F : Type} :
    List (LockEvent F) → Nat → List (LockEvent F)
  | [], _ => []
  | ev :: rest, d =>
    match ev with
    | .lockAcquire => eventsUnderLock rest (d + 1)
    | .lockRelease => eventsUnderLock rest (d - 1)
    | _ => (if 0 < d then [ev] else []) ++ eventsUnderLock rest d

end Shaka

namespace Shaka

/-- C1: For every `Attach(sink)` (`video = some sink`) or `Detach()`
(`video = none`) operation, the controller's held sink is replaced only
upon a successful resolution of the remote attach/detach call, with the
previously held sink detached first; if the call resolves with an Error,
the previously held sink (and the whole controller state) is left
untouched and the error is passed through. -/
theorem setVideo_commit_on_success {S E : Type} (st : VideoState S)
    (e : E) (v : Option S) :
    setVideoWhenResolved st (some e) v = (st, some e)
    ∧ (setVideoWhenResolved st (none : Option E) v).1.video = v
    ∧ (setVideoWhenResolved st (none : Option E) v).1.detachLog
        = st.detachLog ++ st.video.toList
    ∧ (setVideoWhenResolved st (none : Option E) v).2 = none := by
  refine ⟨rfl, rfl, ?_, rfl⟩
  cases hv : st.video <;> simp [setVideoWhenResolved, hv]

/-- C9: The sink swap performed by `Attach`/`Detach` is deferred: the
returned future carries the commit as a `std::launch::deferred`
computation, so the controller is not mutated when the underlying remote
call resolves — only when an observer calls `get()` on the returned
future, at which point the commit of `SetVideoWhenResolved` runs and the
remote result is surfaced. -/
theorem attach_commit_deferred {S E : Type} (fl : AttachFlow S E)
    (res : Option E) :
    (remoteResolved fl res).impl = fl.impl
    ∧ (futureGet (remoteResolved fl res)).1.impl =
        (setVideoWhenResolved fl.impl res fl.newVideo).1
    ∧ (futureGet (remoteResolved fl res)).2 =
        some (setVideoWhenResolved fl.impl res fl.newVideo).2 := by
  refine ⟨rfl, ?_, ?_⟩ <;> simp [futureGet, remoteResolved]

theorem removeNetworkFilters_length {F : Type} [DecidableEq F]
    (filters : List (Option F)) (f : F) :
    (removeNetworkFilters filters f).length = filters.length := by
  simp [removeNetworkFilters]

theorem removeNetworkFilters_getElem {F : Type} [DecidableEq F]
    (filters : List (Option F)) (f : F) (m : Nat) :
    (removeNetworkFilters filters f)[m]? =
      (filters[m]?).map (fun elem => if elem = some f then none else elem) := by
  simp [removeNetworkFilters]

theorem scanAux_sound {F : Type} (l : List (Option F)) (idx j : Nat) (f : F)
    (h : scanAux l idx = some (j, f)) :
    idx ≤ j ∧ l[j - idx]? = some (some f)
      ∧ ∀ m, m < j - idx → l[m]? = some none := by
  induction l generalizing idx with
  | nil => simp [scanAux] at h
  | cons hd tl ih =>
    cases hd with
    | some g =>
      rw [scanAux] at h
      obtain ⟨rfl, rfl⟩ : idx = j ∧ g = f := by
        constructor <;> [exact congrArg Prod.fst (Option.some.inj h);
          exact congrArg Prod.snd (Option.some.inj h)]
      refine ⟨Nat.le_refl _, by simp, ?_⟩
      intro m hm
      omega
    | none =>
      rw [scanAux] at h
      obtain ⟨h1, h2, h3⟩ := ih (idx + 1) h
      refine ⟨by omega, ?_, ?_⟩
      · have hidx : j - idx = (j - (idx + 1)) + 1 := by omega
        rw [hidx]
        simpa using h2
      · intro m hm
        cases m with
        | zero => simp
        | succ m2 =>
          have := h3 m2 (by omega)
          simpa using this

theorem scanNext_sound {F : Type} (filters : List (Option F)) (i j : Nat)
    (f : F) (h : scanNext filters i = some (j, f)) :
    i ≤ j ∧ filters[j]? = some (some f)
      ∧ ∀ m, i ≤ m → m < j → filters[m]? = some none := by
  obtain ⟨h1, h2, h3⟩ := scanAux_sound (filters.drop i) i j f h
  rw [List.getElem?_drop] at h2
  refine ⟨h1, ?_, ?_⟩
  · rw [show i + (j - i) = j by omega] at h2
    exact h2
  · intro m hmi hmj
    have := h3 (m - i) (by omega)
    rw [List.getElem?_drop] at this
    rw [show i + (m - i) = m by omega] at this
    exact this

theorem applyOp_preserves_tombstone {F : Type} [DecidableEq F]
    (filters : List (Option F)) (op : RegOp F) (p : Nat)
    (h : filters[p]? = some none) :
    (applyOp filters op)[p]? = some none := by
  cases op with
  | add f =>
    have hlt : p < filters.length := by
      by_contra hge
      rw [List.getElem?_eq_none (by omega)] at h
      exact Option.noConfusion h
    rw [applyOp, addNetworkFilters, List.getElem?_append, if_pos hlt]
    exact h
  | remove f =>
    rw [applyOp, removeNetworkFilters_getElem, h]
    simp

theorem applyOps_preserves_tombstone {F : Type} [DecidableEq F]
    (filters : List (Option F)) (ops : List (RegOp F)) (p : Nat)
    (h : filters[p]? = some none) :
    (applyOps filters ops)[p]? = some none := by
  induction ops generalizing filters with
  | nil => exact h
  | cons op rest ih =>
    exact ih (applyOp filters op) (applyOp_preserves_tombstone filters op p h)

/-- C3: Every chain traversal invokes live (non-tombstoned) filters
strictly in registration order, skips tombstoned entries, and resumes from
the position immediately after the step that just completed: a successful
scan from position `i` finds `j ≥ i` whose entry is live, every position
between `i` and `j` is a tombstone, and the continuation runs at `j + 1`.
Moreover a filter tombstoned during a traversal is never visited again at
its old position, even if re-added (re-adding appends a fresh entry): no
scan over any later registry state selects a tombstoned position. -/
theorem chainTraversal_order {F : Type} [DecidableEq F] :
    (∀ (filters : List (Option F)) (i j : Nat) (f : F),
        scanNext filters i = some (j, f) →
        i ≤ j ∧ filters[j]? = some (some f)
          ∧ (∀ m, i ≤ m → m < j → filters[m]? = some none)
          ∧ chainStep filters i = .invoke j f (j + 1))
    ∧ (∀ (filters : List (Option F)) (p : Nat) (ops : List (RegOp F))
          (i j : Nat) (f : F),
        filters[p]? = some none →
        scanNext (applyOps filters ops) i = some (j, f) → j ≠ p) := by
  constructor
  · intro filters i j f h
    obtain ⟨h1, h2, h3⟩ := scanNext_sound filters i j f h
    exact ⟨h1, h2, h3, by rw [chainStep, h]⟩
  · intro filters p ops i j f hp hscan
    obtain ⟨-, h2, -⟩ := scanNext_sound _ _ _ _ hscan
    intro hjp
    subst hjp
    rw [applyOps_preserves_tombstone filters ops j hp] at h2
    exact Option.noConfusion (Option.some.inj h2)

theorem chainTraversal_order_witness :
    scanNext ([none, some 2] : List (Option Nat)) 0 = some (1, 2)
    ∧ (0 ≤ 1 ∧ ([none, some 2] : List (Option Nat))[1]? = some (some 2)
        ∧ (∀ m, 0 ≤ m → m < 1 →
            ([none, some 2] : List (Option Nat))[m]? = some none)
        ∧ chainStep ([none, some 2] : List (Option Nat)) 0 =
            .invoke 1 2 2)
    ∧ ([none, some 2] : List (Option Nat))[0]? = some none
    ∧ scanNext (applyOps ([none, some 2] : List (Option Nat))
        [RegOp.add 1, RegOp.remove 2]) 0 = some (2, 1)
    ∧ (2 : Nat) ≠ 0 :=
  ⟨by decide,
   (chainTraversal_order (F := Nat)).1 [none, some 2] 0 1 2 (by decide),
   by decide, by decide,
   (chainTraversal_order (F := Nat)).2 [none, some 2] 0
     [RegOp.add 1, RegOp.remove 2] 0 2 1 (by decide) (by decide)⟩

/-- C4: For every registry state, `RemoveNetworkFilters(f)` tombstones
every entry whose identity equals `f` (including when `f` was registered
multiple times) and never changes the length or ordering of the backing
sequence (every other position is left exactly as it was), so positions
held by an in-progress traversal remain valid. -/
theorem removeNetworkFilters_tombstones {F : Type} [DecidableEq F]
    (filters : List (Option F)) (f : F) :
    (removeNetworkFilters filters f).length = filters.length
    ∧ (∀ m : Nat, filters[m]? = some (some f) →
        (removeNetworkFilters filters f)[m]? = some none)
    ∧ (∀ m : Nat, ∀ elem : Option F, filters[m]? = some elem →
        elem ≠ some f → (removeNetworkFilters filters f)[m]? = some elem) := by
  refine ⟨removeNetworkFilters_length filters f, ?_, ?_⟩
  · intro m hm
    rw [removeNetworkFilters_getElem, hm]
    simp
  · intro m elem hm hne
    rw [removeNetworkFilters_getElem, hm]
    simp [hne]

theorem removeNetworkFilters_tombstones_witness :
    (removeNetworkFilters ([some 1, some 2, some 1] : List (Option Nat))
        1).length = 3
    ∧ ([some 1, some 2, some 1] : List (Option Nat))[0]? = some (some 1)
    ∧ (removeNetworkFilters ([some 1, some 2, some 1] : List (Option Nat))
        1)[0]? = some none
    ∧ ([some 1, some 2, some 1] : List (Option Nat))[1]? = some (some 2)
    ∧ (some 2 : Option Nat) ≠ some 1
    ∧ (removeNetworkFilters ([some 1, some 2, some 1] : List (Option Nat))
        1)[1]? = some (some 2) :=
  ⟨(removeNetworkFilters_tombstones
      ([some 1, some 2, some 1] : List (Option Nat)) 1).1,
   by decide,
   (removeNetworkFilters_tombstones
      ([some 1, some 2, some 1] : List (Option Nat)) 1).2.1 0 (by decide),
   by decide, by decide,
   (removeNetworkFilters_tombstones
      ([some 1, some 2, some 1] : List (Option Nat)) 1).2.2 1 (some 2)
     (by decide) (by decide)⟩

/-- C10: `RemoveNetworkFilters` is idempotent and total over registry
states: removing a filter pointer that was never added (or whose entries
are all already tombstoned, i.e. `some f` no longer occurs) leaves the
registry exactly unchanged, and applying remove twice with the same
pointer yields the same state as applying it once. -/
theorem removeNetworkFilters_idempotent {F : Type} [DecidableEq F]
    (filters : List (Option F)) (f : F) :
    (some f ∉ filters → removeNetworkFilters filters f = filters)
    ∧ removeNetworkFilters (removeNetworkFilters filters f) f =
        removeNetworkFilters filters f := by
  constructor
  · intro h
    unfold removeNetworkFilters
    conv_rhs => rw [← List.map_id filters]
    apply List.map_congr_left
    intro a ha
    have hne : a ≠ some f := fun heq => h (heq ▸ ha)
    simp [hne]
  · unfold removeNetworkFilters
    rw [List.map_map]
    apply List.map_congr_left
    intro a _
    by_cases h : a = some f <;> simp [h, Function.comp]

theorem removeNetworkFilters_idempotent_witness :
    some 5 ∉ ([some 1, none] : List (Option Nat))
    ∧ removeNetworkFilters ([some 1, none] : List (Option Nat)) 5 =
        [some 1, none]
    ∧ removeNetworkFilters
        (removeNetworkFilters ([some 1, none] : List (Option Nat)) 5) 5 =
        removeNetworkFilters ([some 1, none] : List (Option Nat)) 5 :=
  ⟨by decide,
   (removeNetworkFilters_idempotent ([some 1, none] : List (Option Nat))
      5).1 (by decide),
   (removeNetworkFilters_idempotent ([some 1, none] : List (Option Nat))
      5).2⟩

/-- C5: A chain run over a registry containing zero live (non-tombstoned)
entries resolves as success after calling the payload's Finalize hook
exactly once. -/
theorem stepNetworkFilter_no_live {F E : Type} (onFilter : F → Option E)
    (filters : List (Option F)) (h : liveFilters filters = []) :
    stepNetworkFilter onFilter filters =
      { invoked := [], result := none, finalizeCount := 1 } := by
  induction filters with
  | nil => rfl
  | cons hd tl ih =>
    cases hd with
    | none =>
      rw [stepNetworkFilter]
      exact ih (by simpa [liveFilters] using h)
    | some f => simp [liveFilters] at h

theorem stepNetworkFilter_no_live_witness :
    liveFilters ([none, none] : List (Option Nat)) = []
    ∧ stepNetworkFilter (fun _ => (none : Option Nat))
        ([none, none] : List (Option Nat)) =
        { invoked := [], result := none, finalizeCount := 1 } :=
  ⟨by decide, stepNetworkFilter_no_live (fun _ => (none : Option Nat))
    ([none, none] : List (Option Nat)) (by decide)⟩

/-- C2: For every chain run over `N` live filters in which live filter `k`
(1-indexed) returns an error — the earlier live filters `pre` succeed —
the run invokes exactly filters `1..k` (`pre ++ [f]`), never invokes
filters `k+1..N` (`post`), the chain's result is that error, and the
payload's Finalize hook still fires exactly once. -/
theorem stepNetworkFilter_error {F E : Type} (onFilter : F → Option E)
    (filters : List (Option F)) (pre : List F) (f : F) (post : List F) (e : E)
    (hlive : liveFilters filters = pre ++ f :: post)
    (hpre : ∀ g ∈ pre, onFilter g = none)
    (hf : onFilter f = some e) :
    stepNetworkFilter onFilter filters =
      { invoked := pre ++ [f], result := some e, finalizeCount := 1 } := by
  induction filters generalizing pre with
  | nil => simp [liveFilters] at hlive
  | cons hd tl ih =>
    cases hd with
    | none =>
      rw [show liveFilters (none :: tl) = liveFilters tl by
        simp [liveFilters]] at hlive
      rw [stepNetworkFilter]
      exact ih pre hlive hpre
    | some g =>
      have hcons : g :: liveFilters tl = pre ++ f :: post := by
        simpa [liveFilters] using hlive
      cases pre with
      | nil =>
        rw [List.nil_append] at hcons
        obtain ⟨rfl, -⟩ : g = f ∧ liveFilters tl = post :=
          by simpa using hcons
        simp [stepNetworkFilter, handleNetworkFuture, hf]
      | cons p pre2 =>
        rw [List.cons_append] at hcons
        obtain ⟨rfl, htl⟩ : g = p ∧ liveFilters tl = pre2 ++ f :: post :=
          by simpa using hcons
        have hp : onFilter g = none := hpre g (by simp)
        have hrec := ih pre2 htl (fun x hx => hpre x (by simp [hx]))
        simp [stepNetworkFilter, handleNetworkFuture, hp, hrec]

theorem stepNetworkFilter_error_witness :
    liveFilters [some 1, none, some 2, some 3] = [1] ++ 2 :: [3]
    ∧ (∀ g ∈ [1], (fun g => if g = 2 then some 7 else none) g = none)
    ∧ (fun g => if g = 2 then some 7 else (none : Option Nat)) 2 = some 7
    ∧ stepNetworkFilter (fun g => if g = 2 then some 7 else none)
        [some 1, none, some 2, some 3] =
        { invoked := [1] ++ [2], result := some 7, finalizeCount := 1 } :=
  ⟨by decide, by decide, by decide,
   stepNetworkFilter_error (fun g => if g = 2 then some 7 else none)
     [some 1, none, some 2, some 3] [1] 2 [3] 7
     (by decide) (by decide) (by decide)⟩

/-- C6: Initialize fails with the configuration error when the well-known
qualified constructor name `shaka.Player` does not resolve to a callable
function, and any failing step of the initialization sequence
(construction, listener attachment, filter registration) aborts the
remaining steps — the trace stops at the failing step — so the object does
not become Ready (the run's result is `none` exactly when every step
succeeded). -/
theorem playerInit_aborts_on_failure {E : Type} (env : InitEnv E) :
    (env.ctorType ≠ ValueType.Function →
       playerInitRun env = ([.lookupCtor], some .ctorNotFound))
    ∧ ((playerInitRun env).2 = none ↔
         env.ctorType = ValueType.Function ∧ env.ctorResult = none
         ∧ env.errorListener = none ∧ env.bufferingListener = none
         ∧ env.netEngine = none ∧ env.registerRequest = none
         ∧ env.registerResponse = none)
    ∧ (∀ e, env.ctorType = ValueType.Function → env.ctorResult = some e →
         playerInitRun env =
           ([.lookupCtor, .construct], some (.fromStep e)))
    ∧ (∀ e, env.ctorType = ValueType.Function → env.ctorResult = none →
         env.errorListener = some e →
         playerInitRun env =
           ([.lookupCtor, .construct, .initObject, .attachErrorListener],
            some (.fromStep e)))
    ∧ (∀ e, env.ctorType = ValueType.Function → env.ctorResult = none →
         env.errorListener = none → env.bufferingListener = some e →
         playerInitRun env =
           ([.lookupCtor, .construct, .initObject, .attachErrorListener,
             .attachBufferingListener], some (.fromStep e)))
    ∧ (∀ e, env.ctorType = ValueType.Function → env.ctorResult = none →
         env.errorListener = none → env.bufferingListener = none →
         env.netEngine = some e →
         playerInitRun env =
           ([.lookupCtor, .construct, .initObject, .attachErrorListener,
             .attachBufferingListener, .getNetworkingEngine],
            some (.fromStep e)))
    ∧ (∀ e, env.ctorType = ValueType.Function → env.ctorResult = none →
         env.errorListener = none → env.bufferingListener = none →
         env.netEngine = none → env.registerRequest = some e →
         playerInitRun env =
           ([.lookupCtor, .construct, .initObject, .attachErrorListener,
             .attachBufferingListener, .getNetworkingEngine,
             .registerRequestFilter], some (.fromStep e)))
    ∧ (∀ e, env.ctorType = ValueType.Function → env.ctorResult = none →
         env.errorListener = none → env.bufferingListener = none →
         env.netEngine = none → env.registerRequest = none →
         env.registerResponse = some e →
         playerInitRun env =
           ([.lookupCtor, .construct, .initObject, .attachErrorListener,
             .attachBufferingListener, .getNetworkingEngine,
             .registerRequestFilter, .registerResponseFilter],
            some (.fromStep e))) := by
  obtain ⟨ct, cr, el, bl, nw, rq, rs⟩ := env
  cases ct <;> cases cr <;> cases el <;> cases bl <;> cases nw <;>
    cases rq <;> cases rs <;>
    simp [playerInitRun, attachListeners]

theorem playerInit_aborts_on_failure_witness :
    ((⟨ValueType.OtherKind, none, none, none, none, none, none⟩ :
        InitEnv Nat).ctorType ≠ ValueType.Function
      ∧ playerInitRun
          (⟨ValueType.OtherKind, none, none, none, none, none, none⟩ :
            InitEnv Nat) = ([.lookupCtor], some .ctorNotFound))
    ∧ (playerInitRun
         (⟨ValueType.Function, some 3, none, none, none, none, none⟩ :
           InitEnv Nat) =
         ([.lookupCtor, .construct], some (.fromStep 3)))
    ∧ (playerInitRun
         (⟨ValueType.Function, none, some 4, none, none, none, none⟩ :
           InitEnv Nat) =
         ([.lookupCtor, .construct, .initObject, .attachErrorListener],
          some (.fromStep 4)))
    ∧ (playerInitRun
         (⟨ValueType.Function, none, none, some 5, none, none, none⟩ :
           InitEnv Nat) =
         ([.lookupCtor, .construct, .initObject, .attachErrorListener,
           .attachBufferingListener], some (.fromStep 5)))
    ∧ (playerInitRun
         (⟨ValueType.Function, none, none, none, some 6, none, none⟩ :
           InitEnv Nat) =
         ([.lookupCtor, .construct, .initObject, .attachErrorListener,
           .attachBufferingListener, .getNetworkingEngine],
          some (.fromStep 6)))
    ∧ (playerInitRun
         (⟨ValueType.Function, none, none, none, none, some 7, none⟩ :
           InitEnv Nat) =
         ([.lookupCtor, .construct, .initObject, .attachErrorListener,
           .attachBufferingListener, .getNetworkingEngine,
           .registerRequestFilter], some (.fromStep 7)))
    ∧ (playerInitRun
         (⟨ValueType.Function, none, none, none, none, none, some 8⟩ :
           InitEnv Nat) =
         ([.lookupCtor, .construct, .initObject, .attachErrorListener,
           .attachBufferingListener, .getNetworkingEngine,
           .registerRequestFilter, .registerResponseFilter],
          some (.fromStep 8)))
    ∧ (playerInitRun
         (⟨ValueType.Function, none, none, none, none, none, none⟩ :
           InitEnv Nat)).2 = none :=
  ⟨⟨by decide,
    (playerInit_aborts_on_failure
      (⟨ValueType.OtherKind, none, none, none, none, none, none⟩ :
        InitEnv Nat)).1 (by decide)⟩,
   (playerInit_aborts_on_failure
      (⟨ValueType.Function, some 3, none, none, none, none, none⟩ :
        InitEnv Nat)).2.2.1 3 rfl rfl,
   (playerInit_aborts_on_failure
      (⟨ValueType.Function, none, some 4, none, none, none, none⟩ :
        InitEnv Nat)).2.2.2.1 4 rfl rfl rfl,
   (playerInit_aborts_on_failure
      (⟨ValueType.Function, none, none, some 5, none, none, none⟩ :
        InitEnv Nat)).2.2.2.2.1 5 rfl rfl rfl rfl,
   (playerInit_aborts_on_failure
      (⟨ValueType.Function, none, none, none, some 6, none, none⟩ :
        InitEnv Nat)).2.2.2.2.2.1 6 rfl rfl rfl rfl rfl,
   (playerInit_aborts_on_failure
      (⟨ValueType.Function, none, none, none, none, some 7, none⟩ :
        InitEnv Nat)).2.2.2.2.2.2.1 7 rfl rfl rfl rfl rfl rfl,
   (playerInit_aborts_on_failure
      (⟨ValueType.Function, none, none, none, none, none, some 8⟩ :
        InitEnv Nat)).2.2.2.2.2.2.2 8 rfl rfl rfl rfl rfl rfl rfl,
   ((playerInit_aborts_on_failure
      (⟨ValueType.Function, none, none, none, none, none, none⟩ :
        InitEnv Nat)).2.1).2 ⟨rfl, rfl, rfl, rfl, rfl, rfl, rfl⟩⟩

/-- C7: For every double value passed as `Load`'s `start_time` argument,
the value converts to the runtime's undefined/absent value when it is NaN
and to the corresponding numeric value otherwise. -/
theorem load_start_time_nan (u m : String) (d : CDouble) :
    (isnan d = true →
       (PlayerLoadCall u d m).2 = [.str u, .JsUndefined, .str m])
    ∧ (isnan d = false →
       (PlayerLoadCall u d m).2 = [.str u, toJsValueNum d, .str m]) := by
  constructor <;> intro h <;>
    simp [PlayerLoadCall, LoadHelper.toJsValue, h]

theorem load_start_time_nan_witness :
    isnan CDouble.nan = true
    ∧ (PlayerLoadCall "uri" CDouble.nan "mime").2 =
        [.str "uri", .JsUndefined, .str "mime"]
    ∧ isnan (CDouble.finite 2) = false
    ∧ (PlayerLoadCall "uri" (CDouble.finite 2) "mime").2 =
        [.str "uri", toJsValueNum (CDouble.finite 2), .str "mime"] :=
  ⟨rfl, (load_start_time_nan "uri" "mime" CDouble.nan).1 rfl,
   rfl, (load_start_time_nan "uri" "mime" (CDouble.finite 2)).2 rfl⟩

/-- C8 counterexample: the claim says every filter's async step begins
outside the lock's scope, but in `StepNetworkFilter` the call
`((*it)->*on_filter)(type, obj.get())` (player.cc:291) that begins the
filter's asynchronous step is made inside the `std::unique_lock` scope
(player.cc:286-297).  Concretely, for the registry `[some 1]` at position
0, the step's invocation event executes while the mutex is held. -/
theorem lock_held_at_invoke_counterexample :
    stepNetworkFilterTrace ([some 1] : List (Option Nat)) 0 =
      [.lockAcquire, .invokeFilter 0 1, .registerContinuation 1,
       .lockRelease]
    ∧ LockEvent.invokeFilter 0 1 ∈
        eventsUnderLock
          (stepNetworkFilterTrace ([some 1] : List (Option Nat)) 0) 0 := by
  decide

/-- C8 amended: the registry lock is released before each traversal step
returns, so it is never held across the asynchronous completion of a
filter step (the continuation is a fresh call that re-acquires it), and
the terminal `Finalize` and promise resolution run outside the lock; the
synchronous call that begins each filter's async step, however, is made
while the lock is held. -/
theorem lock_scope_amended {F : Type} (filters : List (Option F))
    (i : Nat) :
    lockDepth (stepNetworkFilterTrace filters i) = 0
    ∧ LockEvent.finalizePayload ∉
        eventsUnderLock (stepNetworkFilterTrace filters i) 0
    ∧ LockEvent.resolveChain ∉
        eventsUnderLock (stepNetworkFilterTrace filters i) 0
    ∧ (∀ j f,
        LockEvent.invokeFilter j f ∈ stepNetworkFilterTrace filters i →
        LockEvent.invokeFilter j f ∈
          eventsUnderLock (stepNetworkFilterTrace filters i) 0) := by
  cases h : scanNext filters i with
  | none =>
    simp [stepNetworkFilterTrace, h, eventsUnderLock, lockDepth, lockDelta]
  | some p =>
    obtain ⟨j, f⟩ := p
    simp [stepNetworkFilterTrace, h, eventsUnderLock, lockDepth, lockDelta]

theorem lock_scope_amended_witness :
    LockEvent.invokeFilter 0 1 ∈
      stepNetworkFilterTrace ([some 1] : List (Option Nat)) 0
    ∧ lockDepth
        (stepNetworkFilterTrace ([some 1] : List (Option Nat)) 0) = 0
    ∧ LockEvent.invokeFilter 0 1 ∈
        eventsUnderLock
          (stepNetworkFilterTrace ([some 1] : List (Option Nat)) 0) 0 :=
  ⟨by decide, (lock_scope_amended ([some 1] : List (Option Nat)) 0).1,
   (lock_scope_amended ([some 1] : List (Option Nat)) 0).2.2.2 0 1
     (by decide)⟩

end Shaka
